import Mathlib

/-!
Verification of the Black-Scholes pricing engine
(`black_scholes_model.py`) and its dashboard glue (`streamlit.py`).

The engine is a pure real-valued computation built on the standard normal
distribution (CDF `Φ` and PDF `φ`, supplied in the source by `scipy.stats.norm`).
We embed it over `ℝ`, with `Φ` defined as the genuine Gaussian integral.
-/

open Real MeasureTheory Set

noncomputable section

/-- Gaussian kernel `exp (-t^2 / 2)`: the unnormalized density of the standard
normal distribution, integrand of the CDF supplied by scipy. -/
def gaussKernel (t : ℝ) : ℝ := Real.exp (-t ^ 2 / 2)

/-- Standard normal probability density function (the source's `norm.pdf`). -/
def normPdf (x : ℝ) : ℝ := gaussKernel x / Real.sqrt (2 * π)

/-- Standard normal cumulative distribution function (the source's `norm.cdf`). -/
def normCdf (x : ℝ) : ℝ := (∫ t in Iic x, gaussKernel t) / Real.sqrt (2 * π)

lemma gaussKernel_eq (t : ℝ) : gaussKernel t = Real.exp (-(2⁻¹ : ℝ) * t ^ 2) := by
  unfold gaussKernel
  ring_nf

lemma gaussKernel_pos (t : ℝ) : 0 < gaussKernel t := Real.exp_pos _

lemma gaussKernel_neg_arg (t : ℝ) : gaussKernel (-t) = gaussKernel t := by
  unfold gaussKernel
  ring_nf

lemma continuous_gaussKernel : Continuous gaussKernel := by
  unfold gaussKernel
  continuity

lemma integrable_gaussKernel : Integrable gaussKernel := by
  have h := integrable_exp_neg_mul_sq (by norm_num : (0:ℝ) < 2⁻¹)
  have he : gaussKernel = fun t : ℝ => Real.exp (-(2⁻¹ : ℝ) * t ^ 2) := funext gaussKernel_eq
  rw [he]
  exact h

lemma integral_gaussKernel : (∫ t : ℝ, gaussKernel t) = Real.sqrt (2 * π) := by
  have he : gaussKernel = fun t : ℝ => Real.exp (-(2⁻¹ : ℝ) * t ^ 2) := funext gaussKernel_eq
  rw [he, integral_gaussian (2⁻¹ : ℝ)]
  congr 1
  field_simp
  ring

lemma sqrt_two_pi_pos : 0 < Real.sqrt (2 * π) :=
  Real.sqrt_pos.mpr (by positivity)

lemma normCdf_pos (x : ℝ) : 0 < normCdf x := by
  apply div_pos _ sqrt_two_pi_pos
  have hae : 0 ≤ᵐ[volume.restrict (Iic x)] gaussKernel :=
    ae_of_all _ fun t => (gaussKernel_pos t).le
  rw [setIntegral_pos_iff_support_of_nonneg_ae hae integrable_gaussKernel.integrableOn]
  have hs : Function.support gaussKernel = Set.univ := by
    ext t
    simp [Function.mem_support, gaussKernel, Real.exp_ne_zero]
  rw [hs, Set.univ_inter, Real.volume_Iic]
  simp

lemma normCdf_add_normCdf_neg (x : ℝ) : normCdf x + normCdf (-x) = 1 := by
  have h1 : (∫ t in Iic (-x), gaussKernel t) = ∫ t in Ioi x, gaussKernel t := by
    calc (∫ t in Iic (-x), gaussKernel t)
        = ∫ t in Iic (-x), gaussKernel (-t) := by simp_rw [gaussKernel_neg_arg]
      _ = ∫ t in Ioi (-(-x)), gaussKernel t := integral_comp_neg_Iic _ _
      _ = ∫ t in Ioi x, gaussKernel t := by rw [neg_neg]
  have h2 : (∫ t in Iic x, gaussKernel t) + (∫ t in Ioi x, gaussKernel t)
      = ∫ t : ℝ, gaussKernel t :=
    intervalIntegral.integral_Iic_add_Ioi integrable_gaussKernel.integrableOn
      integrable_gaussKernel.integrableOn
  unfold normCdf
  rw [h1, div_add_div_same, h2, integral_gaussKernel,
    div_self (ne_of_gt sqrt_two_pi_pos)]

lemma normCdf_neg (x : ℝ) : normCdf (-x) = 1 - normCdf x := by
  have h := normCdf_add_normCdf_neg x
  linarith

lemma normCdf_lt_one (x : ℝ) : normCdf x < 1 := by
  have h := normCdf_add_normCdf_neg x
  have hp := normCdf_pos (-x)
  linarith

lemma normCdf_nonneg (x : ℝ) : 0 ≤ normCdf x := (normCdf_pos x).le

lemma normCdf_le_one (x : ℝ) : normCdf x ≤ 1 := (normCdf_lt_one x).le

lemma normCdf_zero : normCdf 0 = 1 / 2 := by
  have h := normCdf_add_normCdf_neg 0
  rw [neg_zero] at h
  linarith

lemma normCdf_eq_half_add (x : ℝ) :
    normCdf x = 1 / 2 + (∫ t in (0:ℝ)..x, gaussKernel t) / Real.sqrt (2 * π) := by
  have h := intervalIntegral.integral_Iic_sub_Iic (f := gaussKernel) (μ := volume)
    integrable_gaussKernel.integrableOn integrable_gaussKernel.integrableOn (a := 0) (b := x)
  have hz := normCdf_zero
  unfold normCdf at hz ⊢
  rw [← h, sub_div]
  rw [hz]
  ring

lemma normPdf_nonneg (x : ℝ) : 0 ≤ normPdf x :=
  div_nonneg (gaussKernel_pos x).le sqrt_two_pi_pos.le

lemma hasDerivAt_normCdf (x : ℝ) : HasDerivAt normCdf (normPdf x) x := by
  have hint : IntervalIntegrable gaussKernel volume 0 x :=
    integrable_gaussKernel.intervalIntegrable
  have hd : HasDerivAt (fun u => ∫ t in (0:ℝ)..u, gaussKernel t) (gaussKernel x) x :=
    intervalIntegral.integral_hasDerivAt_right hint
      (continuous_gaussKernel.stronglyMeasurableAtFilter _ _)
      continuous_gaussKernel.continuousAt
  have h2 : HasDerivAt
      (fun u => 1 / 2 + (∫ t in (0:ℝ)..u, gaussKernel t) / Real.sqrt (2 * π))
      (gaussKernel x / Real.sqrt (2 * π)) x :=
    (hd.div_const _).const_add _
  have h3 : normCdf = fun u => 1 / 2 + (∫ t in (0:ℝ)..u, gaussKernel t) / Real.sqrt (2 * π) :=
    funext normCdf_eq_half_add
  rw [h3]
  exact h2

/-!
Embedding of `black_scholes_model.py`.

`BlackScholes.__init__` stores five scalar parameters on the object;
`calculate_prices` reads them, computes prices and Greeks, stores every
result on the object, and returns the pair `(call_price, put_price)`.
We model the object after `__init__` as `BlackScholes`, and the object
after `calculate_prices` has run as `BSComputed`; the method becomes a
function returning the updated object together with the returned pair.
-/

/-- The `BlackScholes` object as built by `__init__`: the five input fields,
in the source's order. -/
structure BlackScholes where
  time_to_maturity : ℝ
  strike : ℝ
  current_price : ℝ
  volatility : ℝ
  interest_rate : ℝ

/-- The `BlackScholes` object after `calculate_prices` has run: the five
inputs plus every result attribute the method stores. -/
structure BSComputed where
  time_to_maturity : ℝ
  strike : ℝ
  current_price : ℝ
  volatility : ℝ
  interest_rate : ℝ
  call_price : ℝ
  put_price : ℝ
  call_delta : ℝ
  put_delta : ℝ
  call_gamma : ℝ
  put_gamma : ℝ
  call_theta : ℝ
  put_theta : ℝ
  vega : ℝ
  call_rho : ℝ
  put_rho : ℝ

/-- Translation of `BlackScholes.calculate_prices`, line by line: local copies
of the fields, `d1`, `d2`, prices, Greeks, the stores, and the returned pair. -/
def calculate_prices (self : BlackScholes) : BSComputed × ℝ × ℝ :=
  let time_to_maturity := self.time_to_maturity
  let strike := self.strike
  let current_price := self.current_price
  let volatility := self.volatility
  let interest_rate := self.interest_rate
  let d1 := (Real.log (current_price / strike) +
      (interest_rate + 0.5 * volatility ^ 2) * time_to_maturity) /
      (volatility * Real.sqrt time_to_maturity)
  let d2 := d1 - volatility * Real.sqrt time_to_maturity
  let call_price := current_price * normCdf d1 -
      strike * Real.exp (-interest_rate * time_to_maturity) * normCdf d2
  let put_price := strike * Real.exp (-interest_rate * time_to_maturity) * normCdf (-d2) -
      current_price * normCdf (-d1)
  let call_gamma := normPdf d1 / (current_price * volatility * Real.sqrt time_to_maturity)
  ({ time_to_maturity := time_to_maturity
     strike := strike
     current_price := current_price
     volatility := volatility
     interest_rate := interest_rate
     call_price := call_price
     put_price := put_price
     call_delta := normCdf d1
     put_delta := normCdf d1 - 1
     call_gamma := call_gamma
     put_gamma := call_gamma
     call_theta := (-current_price * normPdf d1 * volatility / (2 * Real.sqrt time_to_maturity) -
        interest_rate * strike * Real.exp (-interest_rate * time_to_maturity) * normCdf d2) / 365
     put_theta := (-current_price * normPdf d1 * volatility / (2 * Real.sqrt time_to_maturity) +
        interest_rate * strike * Real.exp (-interest_rate * time_to_maturity) * normCdf (-d2)) / 365
     vega := current_price * Real.sqrt time_to_maturity * normPdf d1 / 100
     call_rho := strike * time_to_maturity * Real.exp (-interest_rate * time_to_maturity) *
        normCdf d2 / 100
     put_rho := -strike * time_to_maturity * Real.exp (-interest_rate * time_to_maturity) *
        normCdf (-d2) / 100 },
   call_price, put_price)

/-- The divisor of `d1` in the source (`volatility * sqrt(time_to_maturity)`,
line 43 of `black_scholes_model.py`): when it is zero the source performs a
floating-point division by zero. -/
def d1_denominator (self : BlackScholes) : ℝ :=
  self.volatility * Real.sqrt self.time_to_maturity

/-!
Spec-side formulas, transcribed from the spec text (section 4.1) in terms of
the five named parameters. They are deliberately written from the spec's
words, to be compared with the code embedding above.
-/

/-- Spec formula: standardized log-moneyness term `d1`. -/
def spec_d1 (time_to_maturity strike current_price volatility interest_rate : ℝ) : ℝ :=
  (Real.log (current_price / strike) +
    (interest_rate + 0.5 * volatility ^ 2) * time_to_maturity) /
    (volatility * Real.sqrt time_to_maturity)

/-- Spec formula: `d2 = d1 - volatility * sqrt(time_to_maturity)`. -/
def spec_d2 (time_to_maturity strike current_price volatility interest_rate : ℝ) : ℝ :=
  spec_d1 time_to_maturity strike current_price volatility interest_rate -
    volatility * Real.sqrt time_to_maturity

/-- Spec formula: `call_price = S * Phi(d1) - K * exp(-r*T) * Phi(d2)`. -/
def spec_call_price (time_to_maturity strike current_price volatility interest_rate : ℝ) : ℝ :=
  current_price * normCdf (spec_d1 time_to_maturity strike current_price volatility interest_rate) -
    strike * Real.exp (-interest_rate * time_to_maturity) *
      normCdf (spec_d2 time_to_maturity strike current_price volatility interest_rate)

/-- Spec formula: `put_price = K * exp(-r*T) * Phi(-d2) - S * Phi(-d1)`. -/
def spec_put_price (time_to_maturity strike current_price volatility interest_rate : ℝ) : ℝ :=
  strike * Real.exp (-interest_rate * time_to_maturity) *
      normCdf (-spec_d2 time_to_maturity strike current_price volatility interest_rate) -
    current_price * normCdf (-spec_d1 time_to_maturity strike current_price volatility interest_rate)

/-- Spec formula: `call_delta = Phi(d1)`. -/
def spec_call_delta (time_to_maturity strike current_price volatility interest_rate : ℝ) : ℝ :=
  normCdf (spec_d1 time_to_maturity strike current_price volatility interest_rate)

/-- Spec formula: `put_delta = Phi(d1) - 1`. -/
def spec_put_delta (time_to_maturity strike current_price volatility interest_rate : ℝ) : ℝ :=
  normCdf (spec_d1 time_to_maturity strike current_price volatility interest_rate) - 1

/-- Spec formula: `gamma = phi(d1) / (current_price * volatility * sqrt(time_to_maturity))`. -/
def spec_gamma (time_to_maturity strike current_price volatility interest_rate : ℝ) : ℝ :=
  normPdf (spec_d1 time_to_maturity strike current_price volatility interest_rate) /
    (current_price * volatility * Real.sqrt time_to_maturity)

/-- Spec formula: call theta, scaled per day (divided by 365). -/
def spec_call_theta (time_to_maturity strike current_price volatility interest_rate : ℝ) : ℝ :=
  (-current_price *
      normPdf (spec_d1 time_to_maturity strike current_price volatility interest_rate) *
      volatility / (2 * Real.sqrt time_to_maturity) -
    interest_rate * strike * Real.exp (-interest_rate * time_to_maturity) *
      normCdf (spec_d2 time_to_maturity strike current_price volatility interest_rate)) / 365

/-- Spec formula: put theta, scaled per day (divided by 365). -/
def spec_put_theta (time_to_maturity strike current_price volatility interest_rate : ℝ) : ℝ :=
  (-current_price *
      normPdf (spec_d1 time_to_maturity strike current_price volatility interest_rate) *
      volatility / (2 * Real.sqrt time_to_maturity) +
    interest_rate * strike * Real.exp (-interest_rate * time_to_maturity) *
      normCdf (-spec_d2 time_to_maturity strike current_price volatility interest_rate)) / 365

/-- Spec formula: `vega = S * sqrt(T) * phi(d1) / 100` (per 1% vol change). -/
def spec_vega (time_to_maturity strike current_price volatility interest_rate : ℝ) : ℝ :=
  current_price * Real.sqrt time_to_maturity *
    normPdf (spec_d1 time_to_maturity strike current_price volatility interest_rate) / 100

/-- Spec formula: `call_rho = K * T * exp(-r*T) * Phi(d2) / 100` (per 1% rate change). -/
def spec_call_rho (time_to_maturity strike current_price volatility interest_rate : ℝ) : ℝ :=
  strike * time_to_maturity * Real.exp (-interest_rate * time_to_maturity) *
    normCdf (spec_d2 time_to_maturity strike current_price volatility interest_rate) / 100

/-- Spec formula: `put_rho = -K * T * exp(-r*T) * Phi(-d2) / 100` (per 1% rate change). -/
def spec_put_rho (time_to_maturity strike current_price volatility interest_rate : ℝ) : ℝ :=
  -strike * time_to_maturity * Real.exp (-interest_rate * time_to_maturity) *
    normCdf (-spec_d2 time_to_maturity strike current_price volatility interest_rate) / 100

/-!
Embedding of the dashboard glue in `streamlit.py` that the heatmap claim is
about: `np.linspace` over 10 points and `plot_pnl_heatmap`'s grid fill loop.
-/

/-- The i-th of `n` evenly spaced points from `a` to `b`
(numpy `linspace(a, b, n)` with the default included endpoint). -/
def linspace (a b : ℝ) (n : ℕ) (i : ℕ) : ℝ :=
  a + (b - a) * i / (n - 1)

/-- Grid fill loop of `plot_pnl_heatmap` (streamlit.py lines 81-96): for each
volatility index `i` and spot index `j`, build a fresh `BlackScholes` from the
swept spot and vol (strike passed in, maturity and rate taken from `bs_model`),
run `calculate_prices`, and store price minus purchase price when a positive
purchase price was given, else the raw price. Returns the call and put grids. -/
def plot_pnl_heatmap (bs_model : BlackScholes) (spot_range vol_range : ℕ → ℝ)
    (strike call_purchase_price put_purchase_price : ℝ) :
    (ℕ → ℕ → ℝ) × (ℕ → ℕ → ℝ) :=
  (fun i j =>
    let bs_temp : BlackScholes :=
      { time_to_maturity := bs_model.time_to_maturity
        strike := strike
        current_price := spot_range j
        volatility := vol_range i
        interest_rate := bs_model.interest_rate }
    let res := calculate_prices bs_temp
    if call_purchase_price > 0 then res.1.call_price - call_purchase_price
    else res.1.call_price,
   fun i j =>
    let bs_temp : BlackScholes :=
      { time_to_maturity := bs_model.time_to_maturity
        strike := strike
        current_price := spot_range j
        volatility := vol_range i
        interest_rate := bs_model.interest_rate }
    let res := calculate_prices bs_temp
    if put_purchase_price > 0 then res.1.put_price - put_purchase_price
    else res.1.put_price)

/-!
Projection lemmas: each field stored by `calculate_prices` coincides with the
corresponding spec-side formula (all hold by unfolding both definitions).
-/

lemma calc_call_price_eq (p : BlackScholes) :
    (calculate_prices p).1.call_price =
      spec_call_price p.time_to_maturity p.strike p.current_price p.volatility p.interest_rate :=
  rfl

lemma calc_put_price_eq (p : BlackScholes) :
    (calculate_prices p).1.put_price =
      spec_put_price p.time_to_maturity p.strike p.current_price p.volatility p.interest_rate :=
  rfl

lemma calc_ret_call_eq (p : BlackScholes) :
    (calculate_prices p).2.1 =
      spec_call_price p.time_to_maturity p.strike p.current_price p.volatility p.interest_rate :=
  rfl

lemma calc_ret_put_eq (p : BlackScholes) :
    (calculate_prices p).2.2 =
      spec_put_price p.time_to_maturity p.strike p.current_price p.volatility p.interest_rate :=
  rfl

lemma calc_call_delta_eq (p : BlackScholes) :
    (calculate_prices p).1.call_delta =
      spec_call_delta p.time_to_maturity p.strike p.current_price p.volatility p.interest_rate :=
  rfl

lemma calc_put_delta_eq (p : BlackScholes) :
    (calculate_prices p).1.put_delta =
      spec_put_delta p.time_to_maturity p.strike p.current_price p.volatility p.interest_rate :=
  rfl

lemma calc_call_gamma_eq (p : BlackScholes) :
    (calculate_prices p).1.call_gamma =
      spec_gamma p.time_to_maturity p.strike p.current_price p.volatility p.interest_rate :=
  rfl

lemma calc_put_gamma_eq (p : BlackScholes) :
    (calculate_prices p).1.put_gamma =
      spec_gamma p.time_to_maturity p.strike p.current_price p.volatility p.interest_rate :=
  rfl

lemma calc_call_theta_eq (p : BlackScholes) :
    (calculate_prices p).1.call_theta =
      spec_call_theta p.time_to_maturity p.strike p.current_price p.volatility p.interest_rate :=
  rfl

lemma calc_put_theta_eq (p : BlackScholes) :
    (calculate_prices p).1.put_theta =
      spec_put_theta p.time_to_maturity p.strike p.current_price p.volatility p.interest_rate :=
  rfl

lemma calc_vega_eq (p : BlackScholes) :
    (calculate_prices p).1.vega =
      spec_vega p.time_to_maturity p.strike p.current_price p.volatility p.interest_rate :=
  rfl

lemma calc_call_rho_eq (p : BlackScholes) :
    (calculate_prices p).1.call_rho =
      spec_call_rho p.time_to_maturity p.strike p.current_price p.volatility p.interest_rate :=
  rfl

lemma calc_put_rho_eq (p : BlackScholes) :
    (calculate_prices p).1.put_rho =
      spec_put_rho p.time_to_maturity p.strike p.current_price p.volatility p.interest_rate :=
  rfl

/-- Put-call parity for the spec formulas, exact over the reals: it follows
from the reflection identity of the normal CDF alone. -/
lemma spec_parity (T K S v r : ℝ) :
    spec_call_price T K S v r - spec_put_price T K S v r = S - K * Real.exp (-r * T) := by
  unfold spec_call_price spec_put_price
  rw [normCdf_neg, normCdf_neg]
  ring

/-- C1: for every input with positive maturity, volatility, strike and spot,
`calculate_prices` returns exactly the pair of spec prices
`call = S * Phi(d1) - K * exp(-r*T) * Phi(d2)` and
`put = K * exp(-r*T) * Phi(-d2) - S * Phi(-d1)`, with `d1` and `d2` as the
spec defines them. -/
theorem C1_prices_follow_spec_formulas (p : BlackScholes)
    (hT : 0 < p.time_to_maturity) (hv : 0 < p.volatility)
    (hK : 0 < p.strike) (hS : 0 < p.current_price) :
    (calculate_prices p).2.1 =
      spec_call_price p.time_to_maturity p.strike p.current_price p.volatility p.interest_rate ∧
    (calculate_prices p).2.2 =
      spec_put_price p.time_to_maturity p.strike p.current_price p.volatility p.interest_rate :=
  ⟨calc_ret_call_eq p, calc_ret_put_eq p⟩

/-- Witness for C1 at the reference scenario input. -/
theorem C1_prices_follow_spec_formulas_witness :
    (calculate_prices ⟨1, 100, 100, 0.2, 0.05⟩).2.1 = spec_call_price 1 100 100 0.2 0.05 ∧
    (calculate_prices ⟨1, 100, 100, 0.2, 0.05⟩).2.2 = spec_put_price 1 100 100 0.2 0.05 :=
  C1_prices_follow_spec_formulas ⟨1, 100, 100, 0.2, 0.05⟩
    (by norm_num) (by norm_num) (by norm_num) (by norm_num)

/-- C2: for every valid input, `calculate_prices` stores the Greeks given by
the spec formulas with the stated scalings: delta `Phi(d1)` and `Phi(d1) - 1`,
gamma `phi(d1) / (S * sigma * sqrt T)`, theta divided by 365, vega
`S * sqrt T * phi(d1) / 100`, and rho `± K * T * exp(-r*T) * Phi(±d2) / 100`. -/
theorem C2_greeks_follow_spec_formulas (p : BlackScholes)
    (hT : 0 < p.time_to_maturity) (hv : 0 < p.volatility)
    (hK : 0 < p.strike) (hS : 0 < p.current_price) :
    (calculate_prices p).1.call_delta =
      spec_call_delta p.time_to_maturity p.strike p.current_price p.volatility p.interest_rate ∧
    (calculate_prices p).1.put_delta =
      spec_put_delta p.time_to_maturity p.strike p.current_price p.volatility p.interest_rate ∧
    (calculate_prices p).1.call_gamma =
      spec_gamma p.time_to_maturity p.strike p.current_price p.volatility p.interest_rate ∧
    (calculate_prices p).1.call_theta =
      spec_call_theta p.time_to_maturity p.strike p.current_price p.volatility p.interest_rate ∧
    (calculate_prices p).1.put_theta =
      spec_put_theta p.time_to_maturity p.strike p.current_price p.volatility p.interest_rate ∧
    (calculate_prices p).1.vega =
      spec_vega p.time_to_maturity p.strike p.current_price p.volatility p.interest_rate ∧
    (calculate_prices p).1.call_rho =
      spec_call_rho p.time_to_maturity p.strike p.current_price p.volatility p.interest_rate ∧
    (calculate_prices p).1.put_rho =
      spec_put_rho p.time_to_maturity p.strike p.current_price p.volatility p.interest_rate :=
  ⟨calc_call_delta_eq p, calc_put_delta_eq p, calc_call_gamma_eq p, calc_call_theta_eq p,
    calc_put_theta_eq p, calc_vega_eq p, calc_call_rho_eq p, calc_put_rho_eq p⟩

/-- Witness for C2 at the reference scenario input. -/
theorem C2_greeks_follow_spec_formulas_witness :
    (calculate_prices ⟨1, 100, 100, 0.2, 0.05⟩).1.call_delta =
      spec_call_delta 1 100 100 0.2 0.05 ∧
    (calculate_prices ⟨1, 100, 100, 0.2, 0.05⟩).1.put_delta =
      spec_put_delta 1 100 100 0.2 0.05 ∧
    (calculate_prices ⟨1, 100, 100, 0.2, 0.05⟩).1.call_gamma =
      spec_gamma 1 100 100 0.2 0.05 ∧
    (calculate_prices ⟨1, 100, 100, 0.2, 0.05⟩).1.call_theta =
      spec_call_theta 1 100 100 0.2 0.05 ∧
    (calculate_prices ⟨1, 100, 100, 0.2, 0.05⟩).1.put_theta =
      spec_put_theta 1 100 100 0.2 0.05 ∧
    (calculate_prices ⟨1, 100, 100, 0.2, 0.05⟩).1.vega =
      spec_vega 1 100 100 0.2 0.05 ∧
    (calculate_prices ⟨1, 100, 100, 0.2, 0.05⟩).1.call_rho =
      spec_call_rho 1 100 100 0.2 0.05 ∧
    (calculate_prices ⟨1, 100, 100, 0.2, 0.05⟩).1.put_rho =
      spec_put_rho 1 100 100 0.2 0.05 :=
  C2_greeks_follow_spec_formulas ⟨1, 100, 100, 0.2, 0.05⟩
    (by norm_num) (by norm_num) (by norm_num) (by norm_num)

/-- C3: for every valid input the computed prices satisfy put-call parity
exactly over the reals (hence within any floating-point tolerance), and when
`current_price = strike` and `interest_rate = 0` the two prices coincide. -/
theorem C3_put_call_parity (p : BlackScholes)
    (hT : 0 < p.time_to_maturity) (hv : 0 < p.volatility)
    (hK : 0 < p.strike) (hS : 0 < p.current_price) (hr : 0 ≤ p.interest_rate) :
    (calculate_prices p).1.call_price - (calculate_prices p).1.put_price =
      p.current_price - p.strike * Real.exp (-p.interest_rate * p.time_to_maturity) ∧
    (p.current_price = p.strike → p.interest_rate = 0 →
      (calculate_prices p).1.call_price = (calculate_prices p).1.put_price) := by
  have hpar : (calculate_prices p).1.call_price - (calculate_prices p).1.put_price =
      p.current_price - p.strike * Real.exp (-p.interest_rate * p.time_to_maturity) := by
    rw [calc_call_price_eq, calc_put_price_eq]
    exact spec_parity _ _ _ _ _
  refine ⟨hpar, fun hSK hr0 => ?_⟩
  rw [hSK, hr0] at hpar
  rw [neg_zero, zero_mul, Real.exp_zero, mul_one, sub_self] at hpar
  linarith

/-- Witness for C3 at the reference scenario input. -/
theorem C3_put_call_parity_witness :
    (calculate_prices ⟨1, 100, 100, 0.2, 0.05⟩).1.call_price -
        (calculate_prices ⟨1, 100, 100, 0.2, 0.05⟩).1.put_price =
      100 - 100 * Real.exp (-(0.05) * 1) ∧
    ((100 : ℝ) = 100 → (0.05 : ℝ) = 0 →
      (calculate_prices ⟨1, 100, 100, 0.2, 0.05⟩).1.call_price =
        (calculate_prices ⟨1, 100, 100, 0.2, 0.05⟩).1.put_price) :=
  C3_put_call_parity ⟨1, 100, 100, 0.2, 0.05⟩
    (by norm_num) (by norm_num) (by norm_num) (by norm_num) (by norm_num)

/-- C4: the source performs no validation; with `time_to_maturity = 0` (or
`volatility = 0`) the divisor `volatility * sqrt(time_to_maturity)` of `d1` is
zero, so the floating-point source divides by zero (numpy yields NaN/Inf with a
warning) and no `InvalidParameterError` is raised — `calculate_prices` has no
raise statement at all. This theorem evaluates the divisor at both failing
inputs. -/
theorem C4_zero_divisor_no_validation :
    d1_denominator ⟨0, 100, 100, 0.2, 0.05⟩ = 0 ∧
    d1_denominator ⟨1, 100, 100, 0, 0.05⟩ = 0 := by
  constructor
  · show (0.2 : ℝ) * Real.sqrt 0 = 0
    simp
  · show (0 : ℝ) * Real.sqrt 1 = 0
    simp

/-- C6: for every valid input, the call delta lies in `[0, 1]`, the put delta
lies in `[-1, 0]`, and their difference is exactly 1. -/
theorem C6_delta_bounds (p : BlackScholes)
    (hT : 0 < p.time_to_maturity) (hv : 0 < p.volatility)
    (hK : 0 < p.strike) (hS : 0 < p.current_price) (hr : 0 ≤ p.interest_rate) :
    0 ≤ (calculate_prices p).1.call_delta ∧ (calculate_prices p).1.call_delta ≤ 1 ∧
    -1 ≤ (calculate_prices p).1.put_delta ∧ (calculate_prices p).1.put_delta ≤ 0 ∧
    (calculate_prices p).1.call_delta - (calculate_prices p).1.put_delta = 1 := by
  rw [calc_call_delta_eq, calc_put_delta_eq]
  unfold spec_call_delta spec_put_delta
  have h1 := normCdf_nonneg
    (spec_d1 p.time_to_maturity p.strike p.current_price p.volatility p.interest_rate)
  have h2 := normCdf_le_one
    (spec_d1 p.time_to_maturity p.strike p.current_price p.volatility p.interest_rate)
  refine ⟨h1, h2, by linarith, by linarith, by ring⟩

/-- Witness for C6 at the reference scenario input. -/
theorem C6_delta_bounds_witness :
    0 ≤ (calculate_prices ⟨1, 100, 100, 0.2, 0.05⟩).1.call_delta ∧
    (calculate_prices ⟨1, 100, 100, 0.2, 0.05⟩).1.call_delta ≤ 1 ∧
    -1 ≤ (calculate_prices ⟨1, 100, 100, 0.2, 0.05⟩).1.put_delta ∧
    (calculate_prices ⟨1, 100, 100, 0.2, 0.05⟩).1.put_delta ≤ 0 ∧
    (calculate_prices ⟨1, 100, 100, 0.2, 0.05⟩).1.call_delta -
      (calculate_prices ⟨1, 100, 100, 0.2, 0.05⟩).1.put_delta = 1 :=
  C6_delta_bounds ⟨1, 100, 100, 0.2, 0.05⟩
    (by norm_num) (by norm_num) (by norm_num) (by norm_num) (by norm_num)

/-- C8: for every valid input, gamma and vega are nonnegative, and the put
gamma stored by the source is the very same value as the call gamma (the
source computes one gamma and assigns it to both fields). -/
theorem C8_gamma_vega_nonneg_shared (p : BlackScholes)
    (hT : 0 < p.time_to_maturity) (hv : 0 < p.volatility)
    (hK : 0 < p.strike) (hS : 0 < p.current_price) (hr : 0 ≤ p.interest_rate) :
    0 ≤ (calculate_prices p).1.call_gamma ∧ 0 ≤ (calculate_prices p).1.vega ∧
    (calculate_prices p).1.put_gamma = (calculate_prices p).1.call_gamma := by
  refine ⟨?_, ?_, rfl⟩
  · rw [calc_call_gamma_eq]
    unfold spec_gamma
    exact div_nonneg (normPdf_nonneg _)
      (mul_nonneg (mul_nonneg hS.le hv.le) (Real.sqrt_nonneg _))
  · rw [calc_vega_eq]
    unfold spec_vega
    exact div_nonneg
      (mul_nonneg (mul_nonneg hS.le (Real.sqrt_nonneg _)) (normPdf_nonneg _))
      (by norm_num)

/-- Witness for C8 at the reference scenario input. -/
theorem C8_gamma_vega_nonneg_shared_witness :
    0 ≤ (calculate_prices ⟨1, 100, 100, 0.2, 0.05⟩).1.call_gamma ∧
    0 ≤ (calculate_prices ⟨1, 100, 100, 0.2, 0.05⟩).1.vega ∧
    (calculate_prices ⟨1, 100, 100, 0.2, 0.05⟩).1.put_gamma =
      (calculate_prices ⟨1, 100, 100, 0.2, 0.05⟩).1.call_gamma :=
  C8_gamma_vega_nonneg_shared ⟨1, 100, 100, 0.2, 0.05⟩
    (by norm_num) (by norm_num) (by norm_num) (by norm_num) (by norm_num)

/-- C10: `calculate_prices` leaves the five input fields unchanged on the
object it returns, and the returned pair is exactly the stored
`(call_price, put_price)`. -/
theorem C10_inputs_unchanged_pair_matches_stores (p : BlackScholes) :
    (calculate_prices p).1.time_to_maturity = p.time_to_maturity ∧
    (calculate_prices p).1.strike = p.strike ∧
    (calculate_prices p).1.current_price = p.current_price ∧
    (calculate_prices p).1.volatility = p.volatility ∧
    (calculate_prices p).1.interest_rate = p.interest_rate ∧
    (calculate_prices p).2 =
      ((calculate_prices p).1.call_price, (calculate_prices p).1.put_price) :=
  ⟨rfl, rfl, rfl, rfl, rfl, rfl⟩

/-- C9: with the dashboard's ranges `linspace spot_min spot_max 10` and
`linspace vol_min vol_max 10`, the sweep is linear and covers exactly
`[spot_min, spot_max]` and `[vol_min, vol_max]`, and every cell `(i, j)` of
the two grids built by `plot_pnl_heatmap` equals the engine price at the
swept spot `spot_min + (spot_max - spot_min) * j / 9` and vol
`vol_min + (vol_max - vol_min) * i / 9` (strike and rate held fixed), minus
the purchase price when that purchase price is positive, else the raw price. -/
theorem C9_heatmap_cells (bs_model : BlackScholes)
    (strike spot_min spot_max vol_min vol_max call_pp put_pp : ℝ) (i j : ℕ) :
    linspace spot_min spot_max 10 0 = spot_min ∧
    linspace spot_min spot_max 10 9 = spot_max ∧
    linspace vol_min vol_max 10 0 = vol_min ∧
    linspace vol_min vol_max 10 9 = vol_max ∧
    (plot_pnl_heatmap bs_model (linspace spot_min spot_max 10) (linspace vol_min vol_max 10)
        strike call_pp put_pp).1 i j =
      (if call_pp > 0 then
        (calculate_prices ⟨bs_model.time_to_maturity, strike,
          spot_min + (spot_max - spot_min) * j / 9,
          vol_min + (vol_max - vol_min) * i / 9, bs_model.interest_rate⟩).1.call_price - call_pp
      else
        (calculate_prices ⟨bs_model.time_to_maturity, strike,
          spot_min + (spot_max - spot_min) * j / 9,
          vol_min + (vol_max - vol_min) * i / 9, bs_model.interest_rate⟩).1.call_price) ∧
    (plot_pnl_heatmap bs_model (linspace spot_min spot_max 10) (linspace vol_min vol_max 10)
        strike call_pp put_pp).2 i j =
      (if put_pp > 0 then
        (calculate_prices ⟨bs_model.time_to_maturity, strike,
          spot_min + (spot_max - spot_min) * j / 9,
          vol_min + (vol_max - vol_min) * i / 9, bs_model.interest_rate⟩).1.put_price - put_pp
      else
        (calculate_prices ⟨bs_model.time_to_maturity, strike,
          spot_min + (spot_max - spot_min) * j / 9,
          vol_min + (vol_max - vol_min) * i / 9, bs_model.interest_rate⟩).1.put_price) := by
  have hls : ∀ a b : ℝ, ∀ k : ℕ, linspace a b 10 k = a + (b - a) * k / 9 := by
    intro a b k
    unfold linspace
    norm_num
  refine ⟨?_, ?_, ?_, ?_, ?_, ?_⟩
  · rw [hls]; norm_num
  · rw [hls]; norm_num
  · rw [hls]; norm_num
  · rw [hls]; norm_num
  · show (if call_pp > 0 then _ - call_pp else _) = _
    rw [hls, hls]
  · show (if put_pp > 0 then _ - put_pp else _) = _
    rw [hls, hls]

/-!
Monotonicity of the prices in the spot. The derivative of the call price in
`current_price` is `Phi(d1)` (the `phi` terms cancel thanks to the identity
`S * phi(d1) = K * exp(-r*T) * phi(d2)`), and the derivative of the put price
is `Phi(d1) - 1`.
-/

lemma hasDerivAt_spec_d1 (T K v r S : ℝ) (hT : 0 < T) (hv : 0 < v) (hK : 0 < K)
    (hS : 0 < S) :
    HasDerivAt (fun x => spec_d1 T K x v r) (S⁻¹ / (v * Real.sqrt T)) S := by
  have hmain : HasDerivAt
      (fun x => (Real.log x + ((r + 0.5 * v ^ 2) * T - Real.log K)) / (v * Real.sqrt T))
      (S⁻¹ / (v * Real.sqrt T)) S :=
    ((Real.hasDerivAt_log hS.ne').add_const _).div_const _
  refine hmain.congr_of_eventuallyEq ?_
  have hmem : Set.Ioi (0:ℝ) ∈ nhds S := isOpen_Ioi.mem_nhds hS
  filter_upwards [hmem] with x hx
  unfold spec_d1
  rw [Real.log_div (ne_of_gt hx) (ne_of_gt hK)]
  ring

lemma hasDerivAt_spec_d2 (T K v r S : ℝ) (hT : 0 < T) (hv : 0 < v) (hK : 0 < K)
    (hS : 0 < S) :
    HasDerivAt (fun x => spec_d2 T K x v r) (S⁻¹ / (v * Real.sqrt T)) S := by
  unfold spec_d2
  exact (hasDerivAt_spec_d1 T K v r S hT hv hK hS).sub_const _

/-- The d1/d2 difference of squares: `d1^2 - d2^2 = 2 * (log (S/K) + r*T)`. -/
lemma spec_d1_sq_sub_d2_sq (T K v r S : ℝ) (hT : 0 < T) (hv : 0 < v) :
    spec_d1 T K S v r ^ 2 - spec_d2 T K S v r ^ 2 =
      2 * (Real.log (S / K) + r * T) := by
  have hc : v * Real.sqrt T ≠ 0 :=
    (mul_pos hv (Real.sqrt_pos.mpr hT)).ne'
  have hc2 : (v * Real.sqrt T) ^ 2 = v ^ 2 * T := by
    rw [mul_pow, Real.sq_sqrt hT.le]
  have h1 : spec_d1 T K S v r * (v * Real.sqrt T) =
      Real.log (S / K) + (r + 0.5 * v ^ 2) * T := by
    unfold spec_d1
    field_simp
  unfold spec_d2
  linear_combination 2 * h1 - hc2

/-- Key Gaussian identity behind the delta formula:
`S * phi(d1) = K * exp(-r*T) * phi(d2)`. -/
lemma spot_pdf_identity (T K v r S : ℝ) (hT : 0 < T) (hv : 0 < v) (hK : 0 < K)
    (hS : 0 < S) :
    S * normPdf (spec_d1 T K S v r) =
      K * Real.exp (-r * T) * normPdf (spec_d2 T K S v r) := by
  have hd12 := spec_d1_sq_sub_d2_sq T K v r S hT hv
  have hLK : Real.log (S / K) = Real.log S - Real.log K :=
    Real.log_div hS.ne' hK.ne'
  set a := spec_d1 T K S v r with ha
  set b := spec_d2 T K S v r with hb
  have key : S * Real.exp (-a ^ 2 / 2) =
      K * Real.exp (-r * T) * Real.exp (-b ^ 2 / 2) := by
    calc S * Real.exp (-a ^ 2 / 2)
        = Real.exp (Real.log S + -a ^ 2 / 2) := by
          rw [Real.exp_add, Real.exp_log hS]
      _ = Real.exp (Real.log K + -r * T + -b ^ 2 / 2) := by
          congr 1
          linear_combination (-1/2 : ℝ) * hd12 - hLK
      _ = K * Real.exp (-r * T) * Real.exp (-b ^ 2 / 2) := by
          rw [Real.exp_add, Real.exp_add, Real.exp_log hK]
  calc S * normPdf a
      = S * Real.exp (-a ^ 2 / 2) / Real.sqrt (2 * π) := by
        unfold normPdf gaussKernel
        ring
    _ = K * Real.exp (-r * T) * Real.exp (-b ^ 2 / 2) / Real.sqrt (2 * π) := by
        rw [key]
    _ = K * Real.exp (-r * T) * normPdf b := by
        unfold normPdf gaussKernel
        ring

lemma hasDerivAt_spec_call_price (T K v r S : ℝ) (hT : 0 < T) (hv : 0 < v) (hK : 0 < K)
    (hS : 0 < S) :
    HasDerivAt (fun x => spec_call_price T K x v r) (normCdf (spec_d1 T K S v r)) S := by
  have hd1 := hasDerivAt_spec_d1 T K v r S hT hv hK hS
  have hd2 := hasDerivAt_spec_d2 T K v r S hT hv hK hS
  have hc1 : HasDerivAt (fun x => normCdf (spec_d1 T K x v r))
      (normPdf (spec_d1 T K S v r) * (S⁻¹ / (v * Real.sqrt T))) S :=
    (hasDerivAt_normCdf (spec_d1 T K S v r)).comp S hd1
  have hc2 : HasDerivAt (fun x => normCdf (spec_d2 T K x v r))
      (normPdf (spec_d2 T K S v r) * (S⁻¹ / (v * Real.sqrt T))) S :=
    (hasDerivAt_normCdf (spec_d2 T K S v r)).comp S hd2
  have hterm1 : HasDerivAt (fun x => x * normCdf (spec_d1 T K x v r))
      (1 * normCdf (spec_d1 T K S v r) +
        S * (normPdf (spec_d1 T K S v r) * (S⁻¹ / (v * Real.sqrt T)))) S :=
    (hasDerivAt_id' S).mul hc1
  have hterm2 : HasDerivAt (fun x => K * Real.exp (-r * T) * normCdf (spec_d2 T K x v r))
      (K * Real.exp (-r * T) *
        (normPdf (spec_d2 T K S v r) * (S⁻¹ / (v * Real.sqrt T)))) S :=
    hc2.const_mul _
  have htot := hterm1.sub hterm2
  have hkey := spot_pdf_identity T K v r S hT hv hK hS
  have heq : (fun x => spec_call_price T K x v r) =
      fun x => x * normCdf (spec_d1 T K x v r) -
        K * Real.exp (-r * T) * normCdf (spec_d2 T K x v r) := by
    funext x
    unfold spec_call_price
    ring
  rw [heq]
  convert htot using 1
  linear_combination (-(S⁻¹ / (v * Real.sqrt T))) * hkey

lemma hasDerivAt_spec_put_price (T K v r S : ℝ) (hT : 0 < T) (hv : 0 < v) (hK : 0 < K)
    (hS : 0 < S) :
    HasDerivAt (fun x => spec_put_price T K x v r) (normCdf (spec_d1 T K S v r) - 1) S := by
  have hfun : (fun x => spec_put_price T K x v r) =
      fun x => spec_call_price T K x v r - x + K * Real.exp (-r * T) := by
    funext x
    have h := spec_parity T K x v r
    linarith
  rw [hfun]
  exact ((hasDerivAt_spec_call_price T K v r S hT hv hK hS).sub (hasDerivAt_id' S)).add_const _

lemma spec_call_price_strictMonoOn (T K v r : ℝ) (hT : 0 < T) (hv : 0 < v) (hK : 0 < K) :
    StrictMonoOn (fun x => spec_call_price T K x v r) (Set.Ioi 0) := by
  apply strictMonoOn_of_deriv_pos (convex_Ioi 0)
  · intro x hx
    exact (hasDerivAt_spec_call_price T K v r x hT hv hK hx).continuousAt.continuousWithinAt
  · intro x hx
    rw [interior_Ioi] at hx
    rw [(hasDerivAt_spec_call_price T K v r x hT hv hK hx).deriv]
    exact normCdf_pos _

lemma spec_put_price_strictAntiOn (T K v r : ℝ) (hT : 0 < T) (hv : 0 < v) (hK : 0 < K) :
    StrictAntiOn (fun x => spec_put_price T K x v r) (Set.Ioi 0) := by
  apply strictAntiOn_of_deriv_neg (convex_Ioi 0)
  · intro x hx
    exact (hasDerivAt_spec_put_price T K v r x hT hv hK hx).continuousAt.continuousWithinAt
  · intro x hx
    rw [interior_Ioi] at hx
    rw [(hasDerivAt_spec_put_price T K v r x hT hv hK hx).deriv]
    have := normCdf_lt_one (spec_d1 T K x v r)
    linarith

/-- C7: for two valid inputs differing only in `current_price`, the larger
spot gives a strictly larger call price and a strictly smaller put price. -/
theorem C7_price_monotone_in_spot (T K v r S1 S2 : ℝ)
    (hT : 0 < T) (hv : 0 < v) (hK : 0 < K) (hr : 0 ≤ r)
    (hS1 : 0 < S1) (hS2 : 0 < S2) (hlt : S1 < S2) :
    (calculate_prices ⟨T, K, S1, v, r⟩).1.call_price <
      (calculate_prices ⟨T, K, S2, v, r⟩).1.call_price ∧
    (calculate_prices ⟨T, K, S2, v, r⟩).1.put_price <
      (calculate_prices ⟨T, K, S1, v, r⟩).1.put_price := by
  constructor
  · rw [calc_call_price_eq, calc_call_price_eq]
    exact spec_call_price_strictMonoOn T K v r hT hv hK hS1 hS2 hlt
  · rw [calc_put_price_eq, calc_put_price_eq]
    exact spec_put_price_strictAntiOn T K v r hT hv hK hS1 hS2 hlt

/-- Witness for C7: spot 100 versus 110 in the reference scenario. -/
theorem C7_price_monotone_in_spot_witness :
    (calculate_prices ⟨1, 100, 100, 0.2, 0.05⟩).1.call_price <
      (calculate_prices ⟨1, 100, 110, 0.2, 0.05⟩).1.call_price ∧
    (calculate_prices ⟨1, 100, 110, 0.2, 0.05⟩).1.put_price <
      (calculate_prices ⟨1, 100, 100, 0.2, 0.05⟩).1.put_price :=
  C7_price_monotone_in_spot 1 100 0.2 0.05 100 110
    (by norm_num) (by norm_num) (by norm_num) (by norm_num)
    (by norm_num) (by norm_num) (by norm_num)

/-!
Numeric bounds for the reference scenario `T=1, K=100, S=100, sigma=0.2,
r=0.05`, where `d1 = 0.35` and `d2 = 0.15`. The CDF values are pinned down by
integrating the truncated Taylor series of the Gaussian kernel, the square
root of `2*pi` by the six-digit bounds on `pi`, and the exponentials by the
Taylor remainder bound.
-/

lemma sqrt_two_pi_lb : 2.506628 < Real.sqrt (2 * π) := by
  rw [Real.lt_sqrt (by norm_num)]
  nlinarith [Real.pi_gt_d6]

lemma sqrt_two_pi_ub : Real.sqrt (2 * π) < 2.5066285 := by
  rw [Real.sqrt_lt' (by norm_num)]
  nlinarith [Real.pi_lt_d6]

lemma exp_series_bound (x : ℝ) (hx : |x| ≤ 1) :
    |Real.exp x - (1 + x + x ^ 2 / 2 + x ^ 3 / 6)| ≤ |x| ^ 4 * (5 / 96) := by
  have hb := Real.exp_bound hx (by norm_num : 0 < 4)
  have hsum : (∑ m ∈ Finset.range 4, x ^ m / (m.factorial : ℝ)) =
      1 + x + x ^ 2 / 2 + x ^ 3 / 6 := by
    simp [Finset.sum_range_succ, Nat.factorial]
  rw [hsum] at hb
  refine le_trans hb (le_of_eq ?_)
  norm_num [Nat.factorial]

lemma exp_neg_005_bounds :
    (0.9512288 : ℝ) ≤ Real.exp (-0.05) ∧ Real.exp (-0.05) ≤ 0.9512295 := by
  have h := exp_series_bound (-0.05) (by rw [abs_neg, abs_of_pos] <;> norm_num)
  have habs : |(-0.05 : ℝ)| = 0.05 := by
    rw [abs_neg, abs_of_pos] <;> norm_num
  rw [habs, abs_le] at h
  obtain ⟨h1, h2⟩ := h
  constructor <;> nlinarith [h1, h2]

lemma poly_hasDerivAt (c t : ℝ) :
    HasDerivAt (fun u => u - u ^ 3 / 6 + u ^ 5 / 40 - u ^ 7 / 336 + c * u ^ 9 / 13824)
      (1 - t ^ 2 / 2 + t ^ 4 / 8 - t ^ 6 / 48 + c * t ^ 8 / 1536) t := by
  have h1 : HasDerivAt (fun u : ℝ => u) 1 t := hasDerivAt_id' t
  have h3 := (hasDerivAt_pow 3 t).div_const 6
  have h5 := (hasDerivAt_pow 5 t).div_const 40
  have h7 := (hasDerivAt_pow 7 t).div_const 336
  have h9 := ((hasDerivAt_pow 9 t).const_mul c).div_const 13824
  have hcomb := (((h1.sub h3).add h5).sub h7).add h9
  convert hcomb using 1
  push_cast
  ring

lemma integral_poly_eval (c a : ℝ) :
    (∫ t in (0:ℝ)..a, (1 - t ^ 2 / 2 + t ^ 4 / 8 - t ^ 6 / 48 + c * t ^ 8 / 1536)) =
      a - a ^ 3 / 6 + a ^ 5 / 40 - a ^ 7 / 336 + c * a ^ 9 / 13824 := by
  have hcont : Continuous fun t : ℝ =>
      1 - t ^ 2 / 2 + t ^ 4 / 8 - t ^ 6 / 48 + c * t ^ 8 / 1536 := by
    continuity
  have hint : IntervalIntegrable
      (fun t : ℝ => 1 - t ^ 2 / 2 + t ^ 4 / 8 - t ^ 6 / 48 + c * t ^ 8 / 1536) volume 0 a :=
    hcont.intervalIntegrable 0 a
  rw [intervalIntegral.integral_eq_sub_of_hasDerivAt (fun t _ => poly_hasDerivAt c t) hint]
  norm_num

lemma gaussKernel_series_bound (t : ℝ) (h2 : t ^ 2 ≤ 2) :
    |gaussKernel t - (1 - t ^ 2 / 2 + t ^ 4 / 8 - t ^ 6 / 48)| ≤ 5 * t ^ 8 / 1536 := by
  have habs : |(-t ^ 2 / 2 : ℝ)| = t ^ 2 / 2 := by
    rw [neg_div, abs_neg, abs_of_nonneg (by positivity)]
  have h := exp_series_bound (-t ^ 2 / 2) (by rw [habs]; linarith)
  rw [habs] at h
  have hpoly : (1 : ℝ) + -t ^ 2 / 2 + (-t ^ 2 / 2) ^ 2 / 2 + (-t ^ 2 / 2) ^ 3 / 6 =
      1 - t ^ 2 / 2 + t ^ 4 / 8 - t ^ 6 / 48 := by
    ring
  have hpow : (t ^ 2 / 2 : ℝ) ^ 4 * (5 / 96) = 5 * t ^ 8 / 1536 := by
    ring
  rw [hpoly, hpow] at h
  exact h

lemma gauss_integral_bounds (a : ℝ) (h0 : 0 ≤ a) (h1 : a ≤ 1) :
    a - a ^ 3 / 6 + a ^ 5 / 40 - a ^ 7 / 336 + (-5) * a ^ 9 / 13824 ≤
        (∫ t in (0:ℝ)..a, gaussKernel t) ∧
    (∫ t in (0:ℝ)..a, gaussKernel t) ≤
        a - a ^ 3 / 6 + a ^ 5 / 40 - a ^ 7 / 336 + 5 * a ^ 9 / 13824 := by
  have hgi : IntervalIntegrable gaussKernel volume 0 a :=
    continuous_gaussKernel.intervalIntegrable 0 a
  have hcu : Continuous fun t : ℝ =>
      1 - t ^ 2 / 2 + t ^ 4 / 8 - t ^ 6 / 48 + (5:ℝ) * t ^ 8 / 1536 := by
    continuity
  have hcl : Continuous fun t : ℝ =>
      1 - t ^ 2 / 2 + t ^ 4 / 8 - t ^ 6 / 48 + (-5:ℝ) * t ^ 8 / 1536 := by
    continuity
  constructor
  · have hpt : ∀ t ∈ Icc (0:ℝ) a,
        (1 - t ^ 2 / 2 + t ^ 4 / 8 - t ^ 6 / 48 + (-5:ℝ) * t ^ 8 / 1536) ≤ gaussKernel t := by
      intro t ht
      have ht2 : t ^ 2 ≤ 2 := by nlinarith [ht.1, ht.2]
      have hb := gaussKernel_series_bound t ht2
      rw [abs_le] at hb
      linarith [hb.1]
    have hmono := intervalIntegral.integral_mono_on h0 (hcl.intervalIntegrable 0 a) hgi hpt
    rw [integral_poly_eval] at hmono
    exact hmono
  · have hpt : ∀ t ∈ Icc (0:ℝ) a,
        gaussKernel t ≤ 1 - t ^ 2 / 2 + t ^ 4 / 8 - t ^ 6 / 48 + (5:ℝ) * t ^ 8 / 1536 := by
      intro t ht
      have ht2 : t ^ 2 ≤ 2 := by nlinarith [ht.1, ht.2]
      have hb := gaussKernel_series_bound t ht2
      rw [abs_le] at hb
      linarith [hb.2]
    have hmono := intervalIntegral.integral_mono_on h0 hgi (hcu.intervalIntegrable 0 a) hpt
    rw [integral_poly_eval] at hmono
    exact hmono

lemma normCdf_035_bounds : (0.636830 : ℝ) ≤ normCdf 0.35 ∧ normCdf 0.35 ≤ 0.636832 := by
  obtain ⟨hl, hu⟩ := gauss_integral_bounds 0.35 (by norm_num) (by norm_num)
  have hs0 := sqrt_two_pi_pos
  have hsl := sqrt_two_pi_lb
  have hsu := sqrt_two_pi_ub
  rw [normCdf_eq_half_add]
  constructor
  · have h3 : (0.136830 : ℝ) ≤ (∫ t in (0:ℝ)..(0.35:ℝ), gaussKernel t) / Real.sqrt (2 * π) := by
      rw [le_div_iff hs0]
      nlinarith [hl, hsu]
    linarith
  · have h3 : (∫ t in (0:ℝ)..(0.35:ℝ), gaussKernel t) / Real.sqrt (2 * π) ≤ 0.136832 := by
      rw [div_le_iff hs0]
      nlinarith [hu, hsl]
    linarith

lemma normCdf_015_bounds : (0.559617 : ℝ) ≤ normCdf 0.15 ∧ normCdf 0.15 ≤ 0.559618 := by
  obtain ⟨hl, hu⟩ := gauss_integral_bounds 0.15 (by norm_num) (by norm_num)
  have hs0 := sqrt_two_pi_pos
  have hsl := sqrt_two_pi_lb
  have hsu := sqrt_two_pi_ub
  rw [normCdf_eq_half_add]
  constructor
  · have h3 : (0.059617 : ℝ) ≤ (∫ t in (0:ℝ)..(0.15:ℝ), gaussKernel t) / Real.sqrt (2 * π) := by
      rw [le_div_iff hs0]
      nlinarith [hl, hsu]
    linarith
  · have h3 : (∫ t in (0:ℝ)..(0.15:ℝ), gaussKernel t) / Real.sqrt (2 * π) ≤ 0.059618 := by
      rw [div_le_iff hs0]
      nlinarith [hu, hsl]
    linarith

lemma normPdf_035_bounds : (0.3752395 : ℝ) ≤ normPdf 0.35 ∧ normPdf 0.35 ≤ 0.3752406 := by
  have hb := gaussKernel_series_bound 0.35 (by norm_num)
  rw [abs_le] at hb
  have hgl : (0.9405867 : ℝ) ≤ gaussKernel 0.35 := by nlinarith [hb.1]
  have hgu : gaussKernel 0.35 ≤ 0.9405883 := by nlinarith [hb.2]
  have hs0 := sqrt_two_pi_pos
  have hsl := sqrt_two_pi_lb
  have hsu := sqrt_two_pi_ub
  unfold normPdf
  constructor
  · rw [le_div_iff hs0]
    nlinarith [hgl, hsu]
  · rw [div_le_iff hs0]
    nlinarith [hgu, hsl]

lemma ref_d1 : spec_d1 1 100 100 0.2 0.05 = 0.35 := by
  unfold spec_d1
  rw [div_self (by norm_num : (100:ℝ) ≠ 0), Real.log_one, Real.sqrt_one]
  norm_num

lemma ref_d2 : spec_d2 1 100 100 0.2 0.05 = 0.15 := by
  unfold spec_d2
  rw [ref_d1, Real.sqrt_one]
  norm_num

lemma ref_call_price_eq : (calculate_prices ⟨1, 100, 100, 0.2, 0.05⟩).1.call_price =
    100 * normCdf 0.35 - 100 * (Real.exp (-0.05) * normCdf 0.15) := by
  rw [calc_call_price_eq]
  show spec_call_price 1 100 100 0.2 0.05 = _
  unfold spec_call_price
  rw [ref_d1, ref_d2]
  norm_num
  ring

lemma ref_put_price_eq : (calculate_prices ⟨1, 100, 100, 0.2, 0.05⟩).1.put_price =
    100 * (Real.exp (-0.05) * (1 - normCdf 0.15)) - 100 * (1 - normCdf 0.35) := by
  rw [calc_put_price_eq]
  show spec_put_price 1 100 100 0.2 0.05 = _
  unfold spec_put_price
  rw [ref_d1, ref_d2, normCdf_neg, normCdf_neg]
  norm_num
  ring

lemma ref_call_delta_eq : (calculate_prices ⟨1, 100, 100, 0.2, 0.05⟩).1.call_delta =
    normCdf 0.35 := by
  rw [calc_call_delta_eq]
  show spec_call_delta 1 100 100 0.2 0.05 = _
  unfold spec_call_delta
  rw [ref_d1]

lemma ref_put_delta_eq : (calculate_prices ⟨1, 100, 100, 0.2, 0.05⟩).1.put_delta =
    normCdf 0.35 - 1 := by
  rw [calc_put_delta_eq]
  show spec_put_delta 1 100 100 0.2 0.05 = _
  unfold spec_put_delta
  rw [ref_d1]

lemma ref_gamma_eq : (calculate_prices ⟨1, 100, 100, 0.2, 0.05⟩).1.call_gamma =
    normPdf 0.35 / 20 := by
  rw [calc_call_gamma_eq]
  show spec_gamma 1 100 100 0.2 0.05 = _
  unfold spec_gamma
  rw [ref_d1, Real.sqrt_one]
  norm_num

lemma ref_vega_eq : (calculate_prices ⟨1, 100, 100, 0.2, 0.05⟩).1.vega =
    normPdf 0.35 := by
  rw [calc_vega_eq]
  show spec_vega 1 100 100 0.2 0.05 = _
  unfold spec_vega
  rw [ref_d1, Real.sqrt_one]
  ring

set_option maxHeartbeats 2000000 in
/-- C5: at the reference scenario `T=1, K=100, S=100, sigma=0.2, r=0.05`,
the computed call and put prices round to 10.45 and 5.57 (two decimals), and
call delta, put delta, gamma and vega round to 0.6368, -0.3632, 0.0188 and
0.3752 (four decimals). -/
theorem C5_reference_scenario :
    |(calculate_prices ⟨1, 100, 100, 0.2, 0.05⟩).1.call_price - 10.45| ≤ 0.005 ∧
    |(calculate_prices ⟨1, 100, 100, 0.2, 0.05⟩).1.put_price - 5.57| ≤ 0.005 ∧
    |(calculate_prices ⟨1, 100, 100, 0.2, 0.05⟩).1.call_delta - 0.6368| ≤ 0.00005 ∧
    |(calculate_prices ⟨1, 100, 100, 0.2, 0.05⟩).1.put_delta - (-0.3632)| ≤ 0.00005 ∧
    |(calculate_prices ⟨1, 100, 100, 0.2, 0.05⟩).1.call_gamma - 0.0188| ≤ 0.00005 ∧
    |(calculate_prices ⟨1, 100, 100, 0.2, 0.05⟩).1.vega - 0.3752| ≤ 0.00005 := by
  obtain ⟨hA1, hA2⟩ := normCdf_035_bounds
  obtain ⟨hC1, hC2⟩ := normCdf_015_bounds
  obtain ⟨hB1, hB2⟩ := exp_neg_005_bounds
  obtain ⟨hP1, hP2⟩ := normPdf_035_bounds
  have hBpos : (0:ℝ) < Real.exp (-0.05) := Real.exp_pos _
  have hC0 : (0:ℝ) ≤ normCdf 0.15 := normCdf_nonneg _
  have hC1' : normCdf 0.15 ≤ 1 := normCdf_le_one _
  have hprod_u : Real.exp (-0.05) * normCdf 0.15 ≤ 0.9512295 * 0.559618 :=
    mul_le_mul hB2 hC2 hC0 (by norm_num)
  have hprod_l : (0.9512288 : ℝ) * 0.559617 ≤ Real.exp (-0.05) * normCdf 0.15 :=
    mul_le_mul hB1 hC1 (by norm_num) hBpos.le
  have hq_u : Real.exp (-0.05) * (1 - normCdf 0.15) ≤ 0.9512295 * (1 - 0.559617) :=
    mul_le_mul hB2 (by linarith) (by linarith) (by norm_num)
  have hq_l : (0.9512288 : ℝ) * (1 - 0.559618) ≤ Real.exp (-0.05) * (1 - normCdf 0.15) :=
    mul_le_mul hB1 (by linarith) (by norm_num) hBpos.le
  refine ⟨?_, ?_, ?_, ?_, ?_, ?_⟩
  · rw [ref_call_price_eq, abs_le]
    constructor <;> nlinarith [hA1, hA2, hprod_l, hprod_u]
  · rw [ref_put_price_eq, abs_le]
    constructor <;> nlinarith [hA1, hA2, hq_l, hq_u]
  · rw [ref_call_delta_eq, abs_le]
    constructor <;> linarith
  · rw [ref_put_delta_eq, abs_le]
    constructor <;> linarith
  · rw [ref_gamma_eq, abs_le]
    constructor <;> linarith
  · rw [ref_vega_eq, abs_le]
    constructor <;> linarith
